import Mathlib

/-!
A model of the `iox_object_store` crate: a namespacing layer that scopes every
read/write/list operation for one logical database to a directory prefix derived
from a server identifier and a database name, translating between global storage
paths and database-relative paths.

Functions present in `src/iox_object_store/src/lib.rs` are translated directly
from the Rust source. The path representation and the backend store live in
sibling crates of the repository that are not under `src/`; those, together with
the operations the source leaves unimplemented (`list`, `delete`, `catalog_path`),
are modelled from the spec and carry a doc comment saying so.
-/

namespace Iox

/-- Byte data handed to or returned by the store; its contents are opaque to this
layer, which only forwards byte streams. -/
abbrev ByteData := List Nat

/-- Modelled from the spec: the external path representation
(`object_store::path::Path` and its parsed form `DirsAndFileName`, not under
`src/`): an ordered sequence of directory segments with an optional terminal
file-name segment (spec, PathAddress). -/
structure Path where
  dirs : List String
  fileName : Option String
deriving DecidableEq

/-- Modelled from the spec: an empty address, as obtained from the store. -/
def Path.empty : Path :=
  { dirs := [], fileName := none }

/-- Modelled from the spec: `push_dir` appends one directory segment. -/
def Path.pushDir (p : Path) (d : String) : Path :=
  { p with dirs := p.dirs ++ [d] }

/-- The ordered segment sequence of a path: directories, then the file name if
any. Equality and prefix comparison of paths are segment-wise. -/
def Path.segments (p : Path) : List String :=
  p.dirs ++ p.fileName.toList

/-- Modelled from the spec: rendering of a path for the concrete scenarios; each
directory segment is followed by the delimiter `/`, the file name (if any) ends
the string. -/
def Path.display (p : Path) : String :=
  String.join (p.dirs.map (fun d => d ++ "/")) ++ (p.fileName.getD "")

/-- Modelled from the spec: `DirsAndFileName::parts_after_prefix` of the external
path crate (not under `src/`): the segment-wise suffix of `full` after removing
the segments of `pre`, or `none` when the segments of `pre` are not an exact
leading prefix of the segments of `full`. -/
def Path.partsAfter (pre full : Path) : Option (List String) :=
  if pre.segments <+: full.segments then
    some (full.segments.drop pre.segments.length)
  else
    none

/-- Modelled from the spec: `ServerId` of the external `data_types` crate (not
under `src/`): a nonzero 32-bit identifier; validation is out of scope, only
nonzeroness and the width bound are kept. -/
structure ServerId where
  val : Nat
  isValid : 0 < val ∧ val < 2 ^ 32

/-- Modelled from the spec: a server id is rendered as its canonical decimal
string form (`ServerId::to_string`). -/
def ServerId.str (s : ServerId) : String :=
  Nat.repr s.val

/-- A path within a database's object store directory (source: `RelativePath`).
Must be combined with a database root path to get an object store path. -/
structure RelativePath where
  parts : List String
deriving DecidableEq

/-- A database-specific object store path that all `RelativePath`s should be
within (source: `RootPath`). -/
structure RootPath where
  root : Path
deriving DecidableEq

/-- How the root of a database is defined in object storage (source:
`RootPath::new`): pushes the stringified server id, then the database name, as
successive directory segments onto the given (empty) address. -/
def RootPath.new (root0 : Path) (serverId : ServerId) (databaseName : String) : RootPath :=
  { root := (root0.pushDir serverId.str).pushDir databaseName }

/-- Create an object storage path relative to the root with the given relative
path (source: `RootPath::join`): clones the root and pushes every part of
`relative`, in order, as a directory segment. -/
def RootPath.join (r : RootPath) (relative : RelativePath) : Path :=
  relative.parts.foldl Path.pushDir r.root

/-- The parts of `fullPath` after the root's segments (source:
`RootPath::relative`; the spec calls it `strip`). The source calls `.expect(..)`
on the external `parts_after_prefix`, panicking when the root is not a prefix of
`fullPath`; the panic is modelled as `none`. The result type carries no
recoverable-error variant at all: the only outcomes are a value or the fatal
fault. -/
def RootPath.relative (r : RootPath) (fullPath : Path) : Option RelativePath :=
  (Path.partsAfter r.root fullPath).map RelativePath.mk

/-- Modelled from the spec: the error taxonomy surfaced by the backend:
`NotFound` for an absent object, `StorageFailure` for any other backend error,
surfaced unchanged. -/
inductive StoreError where
  | notFound (address : Path)
  | storageFailure (message : String)
deriving DecidableEq

/-- The object stored under `address` in an association list of stored objects,
scanning in order; `none` when no entry has that address. -/
def lookupList : List (Path × ByteData) → Path → Option ByteData
  | [], _ => none
  | e :: rest, address => if e.1 = address then some e.2 else lookupList rest address

/-- All entries except those stored under `address`, in order. -/
def removeAddr : List (Path × ByteData) → Path → List (Path × ByteData)
  | [], _ => []
  | e :: rest, address =>
    if e.1 = address then removeAddr rest address
    else e :: removeAddr rest address

/-- The stored addresses having `pre` as a segment-wise prefix, in store order. -/
def keepUnder : List (Path × ByteData) → Path → List Path
  | [], _ => []
  | e :: rest, pre =>
    if pre.segments <+: e.1.segments then e.1 :: keepUnder rest pre
    else keepUnder rest pre

/-- Modelled from the spec: the underlying `object_store` backend collaborator
(a sibling crate of the repository, not under `src/`): the stored objects as an
association list of addresses to byte data, plus an oracle giving the backend
fault (if any) an operation at an address runs into. -/
structure ObjectStore where
  objects : List (Path × ByteData)
  faults : Path → Option String

/-- Modelled from the spec: `new_path`, a way to construct an empty address
native to the store. -/
def ObjectStore.newPath (_ : ObjectStore) : Path :=
  Path.empty

/-- The object currently stored at an address, if any. -/
def ObjectStore.lookup (st : ObjectStore) (address : Path) : Option ByteData :=
  lookupList st.objects address

/-- Modelled from the spec: the backend write operation: stores the data at the
address (shadowing any previous object) unless the backend faults there, in
which case the failure surfaces as `StorageFailure` and nothing is written. The
length hint does not affect the stored contents. -/
def ObjectStore.put (st : ObjectStore) (address : Path) (data : ByteData)
    (_length : Option Nat) : Except StoreError Unit × ObjectStore :=
  match st.faults address with
  | some e => (.error (.storageFailure e), st)
  | none => (.ok (), { st with objects := (address, data) :: st.objects })

/-- Modelled from the spec: the backend read operation: `NotFound` exactly when
no object exists at the address, `StorageFailure` carrying the backend error
unchanged when the backend faults there, the stored bytes otherwise. -/
def ObjectStore.get (st : ObjectStore) (address : Path) : Except StoreError ByteData :=
  match st.faults address with
  | some e => .error (.storageFailure e)
  | none =>
    match st.lookup address with
    | some d => .ok d
    | none => .error (.notFound address)

/-- Modelled from the spec: the backend delete operation: removes the object at
the address; deleting a non-existent object is not an error. -/
def ObjectStore.delete (st : ObjectStore) (address : Path) :
    Except StoreError Unit × ObjectStore :=
  (.ok (), { st with objects := removeAddr st.objects address })

/-- Modelled from the spec: the backend listing: every stored address having the
given address as a segment-wise prefix (every stored address when no prefix is
given), in store order; the pagination of the backend is modelled as a single
batch. -/
def ObjectStore.list (st : ObjectStore) (pre : Option Path) : List (List Path) :=
  match pre with
  | some p => [keepUnder st.objects p]
  | none => [st.objects.map Prod.fst]

/-- Handles persistence of data for a particular database; writes within its
directory/prefix (source: `IoxObjectStore`). -/
structure IoxObjectStore where
  store : ObjectStore
  serverId : ServerId
  databaseName : String
  rootPath : RootPath

/-- Create a database-specific wrapper (source: `IoxObjectStore::new`): builds
the root path from the store's empty path, the server id and the database name,
and keeps the database name. Construction is total: it cannot fail. -/
def IoxObjectStore.new (store : ObjectStore) (serverId : ServerId)
    (databaseName : String) : IoxObjectStore :=
  { store := store
    serverId := serverId
    databaseName := databaseName
    rootPath := RootPath.new store.newPath serverId databaseName }

/-- Location where parquet data goes to (source: `IoxObjectStore::data_path`):
`<server_id>/<db_name>/data/`, built by three `push_dir`s on a fresh path. -/
def IoxObjectStore.dataPath (s : IoxObjectStore) : Path :=
  ((s.store.newPath.pushDir s.serverId.str).pushDir s.databaseName).pushDir "data"

/-- Modelled from the spec: `catalog_path()` is absent from the source file
(only `catalog_transactions` exists there); the spec fixes it as
`<server_id>/<database_name>/transactions/`, built like `data_path`. -/
def IoxObjectStore.catalogPath (s : IoxObjectStore) : Path :=
  ((s.store.newPath.pushDir s.serverId.str).pushDir s.databaseName).pushDir "transactions"

/-- Store this data in this database's object store (source:
`IoxObjectStore::put`): translates `location` via `RootPath::join` and forwards
the bytes and the length hint to the backend write at that absolute address. -/
def IoxObjectStore.put (s : IoxObjectStore) (location : RelativePath)
    (bytes : ByteData) (length : Option Nat) : Except StoreError Unit × ObjectStore :=
  ObjectStore.put s.store (s.rootPath.join location) bytes length

/-- Get the data in this relative path in this database's object store (source:
`IoxObjectStore::get`): translates `location` via `RootPath::join` and forwards
to the backend read at that absolute address. -/
def IoxObjectStore.get (s : IoxObjectStore) (location : RelativePath) :
    Except StoreError ByteData :=
  ObjectStore.get s.store (s.rootPath.join location)

/-- Modelled from the spec: the absolute address `list` asks the backend about:
the prefix translated via `join` when present, otherwise the root itself. -/
def IoxObjectStore.listAddress (s : IoxObjectStore) (pre : Option RelativePath) : Path :=
  match pre with
  | some p => s.rootPath.join p
  | none => s.rootPath.root

/-- Modelled from the spec: `IoxObjectStore::list` is an `unimplemented!()`
placeholder in the source; the spec defines it: list everything under the
translated prefix (or the root itself when absent) and map every returned
address back through `RootPath::relative` (strip), batch by batch. A strip
panic, the fatal scope-violation fault, is modelled as `none`. -/
def IoxObjectStore.list (s : IoxObjectStore) (pre : Option RelativePath) :
    Option (List (List RelativePath)) :=
  (s.store.list (some (s.listAddress pre))).mapM
    (fun batch => batch.mapM (fun item => s.rootPath.relative item))

/-- Wraps one relative path that lives under the transactions sub-scope
(source: `Transaction`). -/
structure Transaction where
  relativePath : RelativePath
deriving DecidableEq

/-- Source: `Transaction::new`. -/
def Transaction.new (relativePath : RelativePath) : Transaction :=
  { relativePath := relativePath }

/-- List all the catalog transaction files in object storage for this database
(source: `IoxObjectStore::catalog_transactions`): calls
`list(Some(["transactions"]))`, propagates its failure, and wraps every path of
every batch with `Transaction::new`, batch by batch. -/
def IoxObjectStore.catalogTransactions (s : IoxObjectStore) :
    Option (List (List Transaction)) :=
  match s.list (some { parts := ["transactions"] }) with
  | none => none
  | some batches => some (batches.map (fun batch => batch.map Transaction.new))

/-- The description the spec gives of `catalog_transactions`: equivalent to
`list(Some(["transactions"]))` with each resulting `RelativePath` wrapped into a
`Transaction`, preserving batch structure and order. -/
def catalogTransactionsSpec (s : IoxObjectStore) : Option (List (List Transaction)) :=
  Option.map (List.map (List.map Transaction.new)) (s.list (some { parts := ["transactions"] }))

/-- Modelled from the spec: `delete` exists in the source only as a commented
sketch; the spec defines it: translate `location` via `join` and forward to the
backend delete at that absolute address. -/
def IoxObjectStore.delete (s : IoxObjectStore) (location : RelativePath) :
    Except StoreError Unit × ObjectStore :=
  ObjectStore.delete s.store (s.rootPath.join location)

/-- A backend with no stored objects and no faults. -/
def emptyStore : ObjectStore :=
  { objects := [], faults := fun _ => none }

/-- A backend that faults at every address. -/
def faultyStore : ObjectStore :=
  { objects := [], faults := fun _ => some "boom" }

/-- The server id 1 of the concrete scenarios. -/
def serverIdOne : ServerId :=
  { val := 1, isValid := by decide }

/-- Folding `pushDir` over a list of parts appends them all to the directory
segments, in order. -/
theorem foldl_pushDir_dirs (parts : List String) (q : Path) :
    (parts.foldl Path.pushDir q).dirs = q.dirs ++ parts := by
  induction parts generalizing q with
  | nil => simp [List.foldl]
  | cons h t ih =>
    rw [List.foldl_cons, ih]
    simp [Path.pushDir]

/-- Folding `pushDir` over a list of parts leaves the file name unchanged. -/
theorem foldl_pushDir_fileName (parts : List String) (q : Path) :
    (parts.foldl Path.pushDir q).fileName = q.fileName := by
  induction parts generalizing q with
  | nil => rfl
  | cons h t ih =>
    rw [List.foldl_cons, ih]
    rfl

/-- For a root whose path carries no file-name segment (as every root built by
`RootPath.new` does), joining appends the relative parts after the root's
segments. -/
theorem segments_join_of_fileName_none (r : RootPath) (hf : r.root.fileName = none)
    (p : RelativePath) : (r.join p).segments = r.root.segments ++ p.parts := by
  unfold RootPath.join Path.segments
  rw [foldl_pushDir_dirs, foldl_pushDir_fileName, hf]
  simp

/-- The root's segments lead every joined path (file-name-free roots). -/
theorem root_prefix_join (r : RootPath) (hf : r.root.fileName = none)
    (p : RelativePath) : r.root.segments <+: (r.join p).segments := by
  rw [segments_join_of_fileName_none r hf p]
  exact List.prefix_append _ _

/-- When the segments of `full` are exactly the segments of `pre` followed by
`tail`, `partsAfter` returns `tail`. -/
theorem partsAfter_of_append (pre full : Path) (tail : List String)
    (h : full.segments = pre.segments ++ tail) : Path.partsAfter pre full = some tail := by
  have hp : pre.segments <+: full.segments := by
    rw [h]
    exact List.prefix_append _ _
  unfold Path.partsAfter
  rw [if_pos hp, h, List.drop_left]

/-- When the segments of `pre` lead those of `full`, `partsAfter` returns the
remaining segments. -/
theorem partsAfter_eq_drop (pre full : Path) (h : pre.segments <+: full.segments) :
    Path.partsAfter pre full = some (full.segments.drop pre.segments.length) := by
  unfold Path.partsAfter
  rw [if_pos h]

/-- Mapping with an `Option`-valued function that succeeds pointwise succeeds as
a whole, yielding the pointwise values. -/
theorem mapM_option_eq_map {α β : Type} (g : α → Option β) (f : α → β) (l : List α)
    (h : ∀ x ∈ l, g x = some (f x)) : l.mapM g = some (l.map f) := by
  induction l with
  | nil => rfl
  | cons a t ih =>
    rw [List.mapM_cons, h a (List.mem_cons_self a t),
      ih (fun x hx => h x (List.mem_cons_of_mem a hx))]
    rfl

/-- Every address `keepUnder` keeps has the asked prefix. -/
theorem prefix_of_mem_keepUnder {objs : List (Path × ByteData)} {pre a : Path}
    (h : a ∈ keepUnder objs pre) : pre.segments <+: a.segments := by
  induction objs with
  | nil => simp [keepUnder] at h
  | cons e t ih =>
    unfold keepUnder at h
    by_cases hc : pre.segments <+: e.1.segments
    · rw [if_pos hc] at h
      rcases List.mem_cons.mp h with h1 | h2
      · rw [h1]
        exact hc
      · exact ih h2
    · rw [if_neg hc] at h
      exact ih h

/-- Removing an address that no entry carries changes nothing. -/
theorem removeAddr_of_lookup_none (objs : List (Path × ByteData)) (address : Path)
    (h : lookupList objs address = none) : removeAddr objs address = objs := by
  induction objs with
  | nil => rfl
  | cons e t ih =>
    unfold lookupList at h
    unfold removeAddr
    by_cases hc : e.1 = address
    · rw [if_pos hc] at h
      simp at h
    · rw [if_neg hc] at h
      rw [if_neg hc, ih h]

/-- The store kept inside the wrapper is the store the wrapper was built from. -/
theorem new_store (st : ObjectStore) (sid : ServerId) (db : String) :
    (IoxObjectStore.new st sid db).store = st := rfl

/-- C1: Round-trip law: for every RootPath built from any server id and database
name, and every RelativePath `p`, stripping the result of joining yields the
original relative path: `r.relative (r.join p) = some p` (the source calls strip
`relative`; `some` is the non-panicking outcome). -/
theorem strip_join_roundTrip (st : ObjectStore) (sid : ServerId) (db : String)
    (p : RelativePath) :
    (RootPath.new st.newPath sid db).relative ((RootPath.new st.newPath sid db).join p)
      = some p := by
  unfold RootPath.relative
  rw [partsAfter_of_append _ _ p.parts (segments_join_of_fileName_none _ rfl p)]
  rfl

/-- C2: Prefix invariant: for every RootPath built from a server id and a
database name and every RelativePath `p`, the address produced by `join p` has
exactly the segments `[server_id stringified, database_name]` followed by the
parts of `p`, in order. -/
theorem join_begins_with_root (st : ObjectStore) (sid : ServerId) (db : String)
    (p : RelativePath) :
    ((RootPath.new st.newPath sid db).join p).segments = [sid.str, db] ++ p.parts := by
  rw [segments_join_of_fileName_none _ rfl p]
  rfl

/-- C3: `relative` (the strip of the spec) has the precondition that the root's
segments lead the input address exactly: exactly when that precondition is
violated the operation takes the fatal panic branch (modelled as `none`), and
under the precondition the failure branch is unreachable (the result is
`some`). The result type has no recoverable-error variant: the fault is fatal,
never an error value. -/
theorem relative_fatal_iff_not_scoped (r : RootPath) (full : Path) :
    r.relative full = none ↔ ¬ r.root.segments <+: full.segments := by
  unfold RootPath.relative Path.partsAfter
  by_cases h : r.root.segments <+: full.segments
  · simp [h]
  · simp [h]

/-- C4: Fixed sub-scopes: for all valid server id and database name,
`data_path()` renders the segments `[server_id, database_name, "data"]` and
`catalog_path()` the segments `[server_id, database_name, "transactions"]`; for
server id 1 and database name "clouds" they display as `1/clouds/data/` and
`1/clouds/transactions/`. -/
theorem dataPath_catalogPath_fixed (st : ObjectStore) (sid : ServerId) (db : String) :
    (IoxObjectStore.new st sid db).dataPath.segments = [sid.str, db, "data"] ∧
    (IoxObjectStore.new st sid db).catalogPath.segments = [sid.str, db, "transactions"] ∧
    (IoxObjectStore.new emptyStore serverIdOne "clouds").dataPath.display
      = "1/clouds/data/" ∧
    (IoxObjectStore.new emptyStore serverIdOne "clouds").catalogPath.display
      = "1/clouds/transactions/" :=
  ⟨rfl, rfl, by decide, by decide⟩

/-- C5: `put` translates the location via `RootPath.join` and forwards bytes
and length hint to the backend write at exactly that absolute address; any
address whose stored content `put` changes lies inside this database's root
scope, so `put` never writes outside it. -/
theorem put_forwards_and_scoped (st : ObjectStore) (sid : ServerId) (db : String)
    (loc : RelativePath) (data : ByteData) (len : Option Nat) :
    IoxObjectStore.put (IoxObjectStore.new st sid db) loc data len
        = ObjectStore.put st ((IoxObjectStore.new st sid db).rootPath.join loc) data len ∧
    ∀ a : Path,
      ObjectStore.lookup (IoxObjectStore.put (IoxObjectStore.new st sid db) loc data len).2 a
          ≠ ObjectStore.lookup st a →
        (IoxObjectStore.new st sid db).rootPath.root.segments <+: a.segments := by
  refine ⟨rfl, ?_⟩
  intro a hne
  by_cases ha : (IoxObjectStore.new st sid db).rootPath.join loc = a
  · rw [← ha]
    exact root_prefix_join _ rfl loc
  · exfalso
    apply hne
    cases hf : st.faults ((IoxObjectStore.new st sid db).rootPath.join loc) with
    | some e =>
      simp [IoxObjectStore.put, ObjectStore.put, new_store, hf]
    | none =>
      simp [IoxObjectStore.put, ObjectStore.put, new_store, hf, ObjectStore.lookup,
        lookupList, ha]

/-- C6: `list` translates the given prefix (or uses the root itself when the
prefix is absent), asks the backend for everything under that absolute address,
and maps every returned address of every batch back through the strip
(`RootPath.relative`) into a relative path: the strip never panics there and
yields exactly the segment suffixes after the root, preserving batches and
order. -/
theorem list_translates_and_strips (st : ObjectStore) (sid : ServerId) (db : String)
    (pre : Option RelativePath) :
    IoxObjectStore.list (IoxObjectStore.new st sid db) pre
      = some ((((IoxObjectStore.new st sid db).store.list
            (some ((IoxObjectStore.new st sid db).listAddress pre))).map
          (List.map (fun a => RelativePath.mk (a.segments.drop
            ((IoxObjectStore.new st sid db).rootPath.root.segments.length)))))) := by
  have hroot : (IoxObjectStore.new st sid db).rootPath.root.segments
      <+: ((IoxObjectStore.new st sid db).listAddress pre).segments := by
    cases pre with
    | none => exact List.prefix_refl _
    | some p => exact root_prefix_join _ rfl p
  unfold IoxObjectStore.list
  apply mapM_option_eq_map
  intro batch hb
  have hb' : batch = keepUnder st.objects ((IoxObjectStore.new st sid db).listAddress pre) :=
    List.mem_singleton.mp hb
  apply mapM_option_eq_map
  intro a ha
  have hpre : ((IoxObjectStore.new st sid db).listAddress pre).segments <+: a.segments := by
    apply prefix_of_mem_keepUnder
    rw [← hb']
    exact ha
  unfold RootPath.relative
  rw [partsAfter_eq_drop _ _ (hroot.trans hpre)]
  rfl

/-- C7: `catalog_transactions()` is equivalent to `list(Some(["transactions"]))`
with each relative path of every yielded batch wrapped into a transaction
reference, preserving batch structure and order. -/
theorem catalogTransactions_eq_spec (s : IoxObjectStore) :
    s.catalogTransactions = catalogTransactionsSpec s := by
  unfold IoxObjectStore.catalogTransactions catalogTransactionsSpec
  cases s.list (some { parts := ["transactions"] }) with
  | none => rfl
  | some batches => rfl

/-- C8: `get` translates the location via `RootPath.join` and forwards to the
backend read at that absolute address; when the backend does not fault there it
fails with `NotFound` exactly when no object exists at that address, and when
the backend faults it fails with `StorageFailure` carrying the backend error
unchanged. -/
theorem get_forwards_and_classifies (st : ObjectStore) (sid : ServerId) (db : String)
    (loc : RelativePath) :
    IoxObjectStore.get (IoxObjectStore.new st sid db) loc
        = ObjectStore.get st ((IoxObjectStore.new st sid db).rootPath.join loc) ∧
    (st.faults ((IoxObjectStore.new st sid db).rootPath.join loc) = none →
      (IoxObjectStore.get (IoxObjectStore.new st sid db) loc
          = Except.error (StoreError.notFound
              ((IoxObjectStore.new st sid db).rootPath.join loc))
        ↔ st.lookup ((IoxObjectStore.new st sid db).rootPath.join loc) = none)) ∧
    ∀ e, st.faults ((IoxObjectStore.new st sid db).rootPath.join loc) = some e →
      IoxObjectStore.get (IoxObjectStore.new st sid db) loc
        = Except.error (StoreError.storageFailure e) := by
  refine ⟨rfl, ?_, ?_⟩
  · intro hf
    cases hl : st.lookup ((IoxObjectStore.new st sid db).rootPath.join loc) with
    | none => simp [IoxObjectStore.get, ObjectStore.get, new_store, hf, hl]
    | some d => simp [IoxObjectStore.get, ObjectStore.get, new_store, hf, hl]
  · intro e hf
    simp [IoxObjectStore.get, ObjectStore.get, new_store, hf]

/-- Witness for C8 at concrete inputs: on an empty fault-free backend, reading a
never-written location fails with `NotFound`; on a faulting backend, the backend
error surfaces unchanged as `StorageFailure`. -/
theorem get_forwards_and_classifies_witness :
    IoxObjectStore.get (IoxObjectStore.new emptyStore serverIdOne "clouds")
        { parts := ["a"] }
      = Except.error (StoreError.notFound
          ((IoxObjectStore.new emptyStore serverIdOne "clouds").rootPath.join
            { parts := ["a"] })) ∧
    IoxObjectStore.get (IoxObjectStore.new faultyStore serverIdOne "clouds")
        { parts := ["a"] }
      = Except.error (StoreError.storageFailure "boom") :=
  ⟨((get_forwards_and_classifies emptyStore serverIdOne "clouds"
      { parts := ["a"] }).2.1 rfl).mpr rfl,
   (get_forwards_and_classifies faultyStore serverIdOne "clouds"
      { parts := ["a"] }).2.2 "boom" rfl⟩

/-- C9: Idempotent delete: deleting a relative path that was never written (or
was already deleted) succeeds without error — and, the address holding no
object, leaves the stored objects unchanged. -/
theorem delete_never_written_ok (st : ObjectStore) (sid : ServerId) (db : String)
    (loc : RelativePath)
    (h : st.lookup ((IoxObjectStore.new st sid db).rootPath.join loc) = none) :
    (IoxObjectStore.delete (IoxObjectStore.new st sid db) loc).1 = Except.ok () ∧
    (IoxObjectStore.delete (IoxObjectStore.new st sid db) loc).2.objects = st.objects :=
  ⟨rfl, removeAddr_of_lookup_none st.objects _ h⟩

/-- Witness for C9 at a concrete input: on an empty backend, deleting a
never-written location succeeds. -/
theorem delete_never_written_ok_witness :
    (IoxObjectStore.delete (IoxObjectStore.new emptyStore serverIdOne "clouds")
        { parts := ["a"] }).1 = Except.ok () :=
  (delete_never_written_ok emptyStore serverIdOne "clouds" { parts := ["a"] } rfl).1

/-- C10: the accessor `database_name()` on a wrapper constructed by `new` with a
given store, server id and database name returns exactly the database name
supplied at construction; `new` is a total function, so construction never
fails. -/
theorem new_databaseName (st : ObjectStore) (sid : ServerId) (db : String) :
    (IoxObjectStore.new st sid db).databaseName = db := rfl

end Iox
